import Mathlib

/-!
Verification of the virtwork orchestration and cleanup engine.

The definitions below are a shallow embedding of the Go sources:
`internal/cleanup/cleanup.go`, `internal/resources/resources.go`,
`internal/vm/vm.go`, `internal/wait/wait.go`, `internal/workloads/*.go`
and the `runE` orchestration in `cmd/virtwork/main.go`.  Cluster calls are
modelled by a functional cluster state plus an interceptor of injected
outcomes, exactly the shape used by the repository's own fake-client tests.
-/

namespace Virtwork

/-- Kubernetes API error classification as distinguished by the code via
`apierrors.IsNotFound`, `IsAlreadyExists`, `IsUnauthorized`, etc. -/
inductive K8sError where
  | notFound
  | alreadyExists
  | unauthorized
  | forbidden
  | badRequest
  | tooManyRequests
  | serverTimeout
  | serviceUnavailable
  | internalError
  | otherErr (msg : String)
deriving DecidableEq, Repr

/-- Mirrors `apierrors.IsNotFound`. -/
def K8sError.isNotFound : K8sError → Bool
  | .notFound => true
  | _ => false

/-- Mirrors `apierrors.IsAlreadyExists`. -/
def K8sError.isAlreadyExists : K8sError → Bool
  | .alreadyExists => true
  | _ => false

/-- Label sets, as association lists of key/value pairs
(Go `map[string]string`). -/
abbrev Labels := List (String × String)

/-- Constants from `internal/constants/constants.go`. -/
def LabelAppName : String := "app.kubernetes.io/name"

def LabelManagedBy : String := "app.kubernetes.io/managed-by"

def LabelComponent : String := "app.kubernetes.io/component"

def ManagedByValue : String := "virtwork"

/-- Modelled from the spec: the run-identifier label key
(`<tool-name>/run-id`); the constant `LabelRunID = "virtwork/run-id"` is
referenced by `cmd/virtwork/main.go` but the constants file revision adding it
is not among the source files. -/
def LabelRunID : String := "virtwork/run-id"

/-- The role label key used literally in `cmd/virtwork/main.go` and in the
network workload's Service selector. -/
def LabelRole : String := "virtwork/role"

/-- Look up a label key (first match, as in a Go map). -/
def getLabel (ls : Labels) (k : String) : Option String :=
  (ls.find? (fun p => p.fst == k)).map Prod.snd

/-- Does the label set carry key `k` with value `v`? -/
def hasLabelValue (ls : Labels) (k v : String) : Bool :=
  getLabel ls k == some v

/-- Does the label set satisfy every requirement of the selector
(`client.MatchingLabels`)? -/
def matchesSelector (ls sel : Labels) : Bool :=
  sel.all (fun p => hasLabelValue ls p.fst p.snd)

/-! ## Cleanup engine (`internal/cleanup/cleanup.go`) -/

/-- A labelled cluster object of one kind, as listed by a label selector. -/
structure K8sObject where
  name : String
  labels : Labels
deriving DecidableEq, Repr

/-- Cluster contents of one namespace: the managed kinds the cleanup engine
touches, plus namespace existence. -/
structure ClusterState where
  vms : List K8sObject
  services : List K8sObject
  secrets : List K8sObject
  namespaceExists : Bool
deriving DecidableEq, Repr

/-- Injected call outcomes, mirroring the `interceptor.Funcs` used by
`cleanup_test.go`: a `some e` entry makes that call return `e` without
touching the state. -/
structure Interceptor where
  listVMErr : Option K8sError
  listSvcErr : Option K8sError
  listSecretErr : Option K8sError
  deleteVMErr : String → Option K8sError
  deleteSvcErr : String → Option K8sError
  deleteSecretErr : String → Option K8sError
  deleteNsErr : Option K8sError

/-- The interceptor that injects nothing: every call behaves as the plain
fake cluster. -/
def Interceptor.benign : Interceptor :=
  ⟨none, none, none, fun _ => none, fun _ => none, fun _ => none, none⟩

/-- One accumulated per-resource deletion failure
(`fmt.Errorf("deleting VM %s: %w", name, err)` carries exactly the kind,
the name and the cause). -/
structure DeleteError where
  kind : String
  name : String
  err : K8sError
deriving DecidableEq, Repr

/-- `CleanupResult` from `cleanup.go`, with the `RunIDs` field added by the
targeted-cleanup revision. -/
structure CleanupResult where
  vmsDeleted : Nat := 0
  servicesDeleted : Nat := 0
  secretsDeleted : Nat := 0
  namespaceDeleted : Bool := false
  errors : List DeleteError := []
  runIDs : List String := []
deriving DecidableEq, Repr

/-- Modelled from the spec: the label selector built by `CleanupAll` — always
the managed-by label, plus the run-identifier label when a filter was
supplied.  (The revision of `cleanup.go` taking the `runID` parameter is not
among the source files; only its tests and callers are.) -/
def cleanupSelector (runID : String) : Labels :=
  if runID = "" then [(LabelManagedBy, ManagedByValue)]
  else [(LabelManagedBy, ManagedByValue), (LabelRunID, runID)]

/-- The per-kind deletion loop of `CleanupAll`: delete each listed item; on
success count it, on not-found skip it, on any other failure record a
descriptive error and continue. -/
def processItems (del : String → Option K8sError) (kind : String) :
    List K8sObject → Nat × List DeleteError
  | [] => (0, [])
  | o :: rest =>
    match del o.name with
    | none =>
      let r := processItems del kind rest
      (r.fst + 1, r.snd)
    | some e =>
      if e.isNotFound then processItems del kind rest
      else
        let r := processItems del kind rest
        (r.fst, ⟨kind, o.name, e⟩ :: r.snd)

/-- Insert a run identifier into the accumulating set, keeping first-seen
order and dropping duplicates. -/
def insertRunID (acc : List String) (v : String) : List String :=
  if acc.contains v then acc else acc ++ [v]

/-- Modelled from the spec: for each listed match, record its run-identifier
label value (if present) into the accumulating set (`collectRunID` in the
targeted-cleanup revision of `cleanup.go`). -/
def collectRunIDs : List K8sObject → List String → List String
  | [], acc => acc
  | o :: rest, acc =>
    match getLabel o.labels LabelRunID with
    | some v => collectRunIDs rest (insertRunID acc v)
    | none => collectRunIDs rest acc

/-- State left behind by one kind's deletion loop: an object disappears
exactly when it matched the selector and its delete was not intercepted. -/
def removeDeleted (del : String → Option K8sError) (sel : Labels)
    (objs : List K8sObject) : List K8sObject :=
  objs.filter (fun o => !(matchesSelector o.labels sel && (del o.name).isNone))

/-- Outcome of the single namespace delete call: an injected interceptor
error if any, otherwise success when the namespace exists and not-found when
it does not. -/
def nsDeleteOutcome (intc : Interceptor) (st : ClusterState) : Option K8sError :=
  match intc.deleteNsErr with
  | some e => some e
  | none => if st.namespaceExists then none else some K8sError.notFound

/-- `CleanupAll` from `internal/cleanup/cleanup.go`, with the `runID`
parameter of the targeted-cleanup revision.  The VM, Service and Secret loops
mirror the source lines 37-84; the selector construction and run-identifier
collection are modelled from the spec (see `cleanupSelector`,
`collectRunIDs`).  Returns the final cluster state, the `CleanupResult`, and
the top-level error (a listing-stage message plus cause), exactly the Go
`(*CleanupResult, error)` pair. -/
def cleanupAll (intc : Interceptor) (st : ClusterState) (ns : String)
    (deleteNamespace : Bool) (runID : String) :
    ClusterState × CleanupResult × Option (String × K8sError) :=
  let sel := cleanupSelector runID
  match intc.listVMErr with
  | some e => (st, {}, some ("listing VMs in " ++ ns, e))
  | none =>
    let vmItems := st.vms.filter (fun o => matchesSelector o.labels sel)
    let pv := processItems intc.deleteVMErr "VM" vmItems
    let rids1 := collectRunIDs vmItems []
    let st1 : ClusterState := { st with vms := removeDeleted intc.deleteVMErr sel st.vms }
    match intc.listSvcErr with
    | some e =>
      (st1, { vmsDeleted := pv.fst, errors := pv.snd, runIDs := rids1 },
        some ("listing services in " ++ ns, e))
    | none =>
      let svcItems := st1.services.filter (fun o => matchesSelector o.labels sel)
      let ps := processItems intc.deleteSvcErr "service" svcItems
      let rids2 := collectRunIDs svcItems rids1
      let st2 : ClusterState :=
        { st1 with services := removeDeleted intc.deleteSvcErr sel st1.services }
      match intc.listSecretErr with
      | some e =>
        (st2,
          { vmsDeleted := pv.fst, servicesDeleted := ps.fst,
            errors := pv.snd ++ ps.snd, runIDs := rids2 },
          some ("listing secrets in " ++ ns, e))
      | none =>
        let secItems := st2.secrets.filter (fun o => matchesSelector o.labels sel)
        let pc := processItems intc.deleteSecretErr "secret" secItems
        let rids3 := collectRunIDs secItems rids2
        let st3 : ClusterState :=
          { st2 with secrets := removeDeleted intc.deleteSecretErr sel st2.secrets }
        let base : CleanupResult :=
          { vmsDeleted := pv.fst, servicesDeleted := ps.fst, secretsDeleted := pc.fst,
            errors := pv.snd ++ ps.snd ++ pc.snd, runIDs := rids3 }
        if deleteNamespace then
          match nsDeleteOutcome intc st with
          | none =>
            ({ st3 with namespaceExists := false },
              { base with namespaceDeleted := true }, none)
          | some e =>
            if e.isNotFound then (st3, base, none)
            else (st3, { base with errors := base.errors ++ [⟨"namespace", ns, e⟩] }, none)
        else
          (st3, base, none)

/-! ### Characterizations of the cleanup loops -/

/-- The non-not-found delete failures of a kind's loop, as a list
combinator: one descriptive entry per failing item, in item order. -/
def fatalFailures (del : String → Option K8sError) (kind : String)
    (items : List K8sObject) : List DeleteError :=
  items.filterMap (fun o =>
    match del o.name with
    | none => none
    | some e => if e.isNotFound then none else some ⟨kind, o.name, e⟩)

theorem processItems_fst (del : String → Option K8sError) (kind : String)
    (items : List K8sObject) :
    (processItems del kind items).fst
      = (items.filter (fun o => (del o.name).isNone)).length := by
  induction items with
  | nil => rfl
  | cons o rest ih =>
    cases h : del o.name with
    | none => simp [processItems, h, ih]
    | some e =>
      by_cases he : e.isNotFound = true
      · simp [processItems, h, he, ih]
      · simp [processItems, h, he, ih]

theorem processItems_snd (del : String → Option K8sError) (kind : String)
    (items : List K8sObject) :
    (processItems del kind items).snd = fatalFailures del kind items := by
  induction items with
  | nil => rfl
  | cons o rest ih =>
    cases h : del o.name with
    | none => simp [processItems, fatalFailures, h, ih]
    | some e =>
      by_cases he : e.isNotFound = true
      · simp [processItems, fatalFailures, h, he, ih]
      · simp [processItems, fatalFailures, h, he, ih]

theorem fatalFailures_kind (del : String → Option K8sError) (kind : String)
    (items : List K8sObject) :
    ∀ de ∈ fatalFailures del kind items, de.kind = kind := by
  intro de hde
  unfold fatalFailures at hde
  obtain ⟨o, -, ho⟩ := List.mem_filterMap.mp hde
  split at ho
  · cases ho
  · split at ho
    · cases ho
    · cases ho
      rfl

theorem mem_insertRunID (acc : List String) (w v : String) :
    v ∈ insertRunID acc w ↔ v ∈ acc ∨ v = w := by
  by_cases h : w ∈ acc
  · have hc : acc.contains w = true := List.elem_iff.mpr h
    rw [insertRunID, if_pos hc]
    constructor
    · exact Or.inl
    · rintro (hv | rfl)
      · exact hv
      · exact h
  · have hc : ¬acc.contains w = true := fun hx => h (List.elem_iff.mp hx)
    rw [insertRunID, if_neg hc]
    simp only [List.mem_append, List.mem_singleton]

theorem mem_collectRunIDs (items : List K8sObject) (acc : List String)
    (v : String) :
    v ∈ collectRunIDs items acc ↔
      v ∈ acc ∨ ∃ o ∈ items, getLabel o.labels LabelRunID = some v := by
  induction items generalizing acc with
  | nil => simp [collectRunIDs]
  | cons o rest ih =>
    cases h : getLabel o.labels LabelRunID with
    | none =>
      simp only [collectRunIDs, h]
      rw [ih]
      constructor
      · rintro (hv | ⟨o2, ho2, hg⟩)
        · exact Or.inl hv
        · exact Or.inr ⟨o2, List.mem_cons_of_mem _ ho2, hg⟩
      · rintro (hv | ⟨o2, ho2, hg⟩)
        · exact Or.inl hv
        · rcases List.mem_cons.mp ho2 with rfl | ho2
          · rw [h] at hg; cases hg
          · exact Or.inr ⟨o2, ho2, hg⟩
    | some w =>
      simp only [collectRunIDs, h]
      rw [ih]
      constructor
      · rintro (hv | ⟨o2, ho2, hg⟩)
        · rcases (mem_insertRunID acc w v).mp hv with hv | rfl
          · exact Or.inl hv
          · exact Or.inr ⟨o, List.mem_cons_self _ _, h⟩
        · exact Or.inr ⟨o2, List.mem_cons_of_mem _ ho2, hg⟩
      · rintro (hv | ⟨o2, ho2, hg⟩)
        · exact Or.inl ((mem_insertRunID acc w v).mpr (Or.inl hv))
        · rcases List.mem_cons.mp ho2 with rfl | ho2
          · rw [h] at hg
            injection hg with hwv
            exact Or.inl ((mem_insertRunID acc w v).mpr (Or.inr hwv.symm))
          · exact Or.inr ⟨o2, ho2, hg⟩

theorem nodup_insertRunID (acc : List String) (w : String) (h : acc.Nodup) :
    (insertRunID acc w).Nodup := by
  by_cases hw : w ∈ acc
  · have hc : acc.contains w = true := List.elem_iff.mpr hw
    rw [insertRunID, if_pos hc]
    exact h
  · have hc : ¬acc.contains w = true := fun hx => hw (List.elem_iff.mp hx)
    rw [insertRunID, if_neg hc]
    simp [List.nodup_append, h, hw]

theorem nodup_collectRunIDs (items : List K8sObject) (acc : List String)
    (h : acc.Nodup) : (collectRunIDs items acc).Nodup := by
  induction items generalizing acc with
  | nil => simpa [collectRunIDs] using h
  | cons o rest ih =>
    cases hg : getLabel o.labels LabelRunID with
    | none => simpa [collectRunIDs, hg] using ih acc h
    | some w =>
      simp only [collectRunIDs, hg]
      exact ih _ (nodup_insertRunID acc w h)

theorem removeDeleted_benign (sel : Labels) (objs : List K8sObject) :
    removeDeleted (fun _ => none) sel objs
      = objs.filter (fun o => !matchesSelector o.labels sel) := by
  unfold removeDeleted
  simp

theorem processItems_benign (kind : String) (items : List K8sObject) :
    processItems (fun _ => none) kind items = (items.length, []) := by
  induction items with
  | nil => rfl
  | cons o rest ih => simp [processItems, ih]

/-- The namespace-stage error contribution: one entry when deletion of the
namespace was requested and failed with something other than not-found. -/
def nsFatalError (intc : Interceptor) (st : ClusterState) (ns : String)
    (dn : Bool) : List DeleteError :=
  if dn then
    match nsDeleteOutcome intc st with
    | none => []
    | some e => if e.isNotFound then [] else [⟨"namespace", ns, e⟩]
  else []

/-- Closed form of a cleanup pass whose three listing calls succeed: no
top-level error, per-kind counters count the successful deletes, the error
list holds exactly the non-not-found delete failures in kind order, and the
state loses exactly the successfully deleted matches. -/
theorem cleanupAll_eq_of_listsOk (intc : Interceptor) (st : ClusterState)
    (ns : String) (dn : Bool) (rid : String)
    (hv : intc.listVMErr = none) (hs : intc.listSvcErr = none)
    (hc : intc.listSecretErr = none) :
    cleanupAll intc st ns dn rid =
      (⟨removeDeleted intc.deleteVMErr (cleanupSelector rid) st.vms,
        removeDeleted intc.deleteSvcErr (cleanupSelector rid) st.services,
        removeDeleted intc.deleteSecretErr (cleanupSelector rid) st.secrets,
        st.namespaceExists && !(dn && (nsDeleteOutcome intc st).isNone)⟩,
       { vmsDeleted :=
           ((st.vms.filter (fun o => matchesSelector o.labels (cleanupSelector rid))).filter
             (fun o => (intc.deleteVMErr o.name).isNone)).length,
         servicesDeleted :=
           ((st.services.filter (fun o => matchesSelector o.labels (cleanupSelector rid))).filter
             (fun o => (intc.deleteSvcErr o.name).isNone)).length,
         secretsDeleted :=
           ((st.secrets.filter (fun o => matchesSelector o.labels (cleanupSelector rid))).filter
             (fun o => (intc.deleteSecretErr o.name).isNone)).length,
         namespaceDeleted := dn && (nsDeleteOutcome intc st).isNone,
         errors :=
           fatalFailures intc.deleteVMErr "VM"
               (st.vms.filter (fun o => matchesSelector o.labels (cleanupSelector rid)))
             ++ fatalFailures intc.deleteSvcErr "service"
               (st.services.filter (fun o => matchesSelector o.labels (cleanupSelector rid)))
             ++ fatalFailures intc.deleteSecretErr "secret"
               (st.secrets.filter (fun o => matchesSelector o.labels (cleanupSelector rid)))
             ++ nsFatalError intc st ns dn,
         runIDs :=
           collectRunIDs
             (st.secrets.filter (fun o => matchesSelector o.labels (cleanupSelector rid)))
             (collectRunIDs
               (st.services.filter (fun o => matchesSelector o.labels (cleanupSelector rid)))
               (collectRunIDs
                 (st.vms.filter (fun o => matchesSelector o.labels (cleanupSelector rid)))
                 [])) },
       none) := by
  cases dn with
  | false =>
    simp [cleanupAll, hv, hs, hc, processItems_fst, processItems_snd, nsFatalError]
  | true =>
    cases hns : nsDeleteOutcome intc st with
    | none =>
      simp [cleanupAll, hv, hs, hc, processItems_fst, processItems_snd, nsFatalError, hns]
    | some e =>
      by_cases he : e.isNotFound = true
      · simp [cleanupAll, hv, hs, hc, processItems_fst, processItems_snd, nsFatalError, hns, he]
      · simp [cleanupAll, hv, hs, hc, processItems_fst, processItems_snd, nsFatalError, hns, he]

theorem mem_fatalFailures (del : String → Option K8sError) (kind : String)
    (items : List K8sObject) (de : DeleteError)
    (hde : de ∈ fatalFailures del kind items) :
    de.kind = kind ∧ del de.name = some de.err ∧ de.err.isNotFound = false := by
  unfold fatalFailures at hde
  obtain ⟨o, -, ho⟩ := List.mem_filterMap.mp hde
  split at ho
  next => cases ho
  next e h =>
    split at ho
    next => cases ho
    next he =>
      cases ho
      refine ⟨rfl, h, ?_⟩
      simpa using he

/-! ### Claim theorems for the cleanup engine -/

/-- C1: the cleanup label selector always includes the managed-by label and
additionally the run-id label exactly when a run-identifier filter is
supplied; against a fault-free cluster, cleanup deletes precisely the
selector-matching resources of each kind (so a cleanup filtered to run-id A
removes only A-labelled resources and an unfiltered one removes every
managed resource), and the result's run-identifier set holds exactly the
distinct run-id label values observed on the processed resources. -/
theorem cleanupAll_selector_scoping_and_runids (st : ClusterState)
    (ns : String) (dn : Bool) (rid : String) :
    (LabelManagedBy, ManagedByValue) ∈ cleanupSelector rid ∧
    (rid ≠ "" → (LabelRunID, rid) ∈ cleanupSelector rid) ∧
    (rid = "" → cleanupSelector rid = [(LabelManagedBy, ManagedByValue)]) ∧
    (cleanupAll .benign st ns dn rid).fst.vms
      = st.vms.filter (fun o => !matchesSelector o.labels (cleanupSelector rid)) ∧
    (cleanupAll .benign st ns dn rid).fst.services
      = st.services.filter (fun o => !matchesSelector o.labels (cleanupSelector rid)) ∧
    (cleanupAll .benign st ns dn rid).fst.secrets
      = st.secrets.filter (fun o => !matchesSelector o.labels (cleanupSelector rid)) ∧
    (∀ v, v ∈ (cleanupAll .benign st ns dn rid).snd.fst.runIDs ↔
      ∃ o, (o ∈ st.vms ∨ o ∈ st.services ∨ o ∈ st.secrets) ∧
        matchesSelector o.labels (cleanupSelector rid) = true ∧
        getLabel o.labels LabelRunID = some v) ∧
    (cleanupAll .benign st ns dn rid).snd.fst.runIDs.Nodup := by
  have key := cleanupAll_eq_of_listsOk .benign st ns dn rid rfl rfl rfl
  refine ⟨?_, ?_, ?_, ?_, ?_, ?_, ?_, ?_⟩
  · unfold cleanupSelector
    split <;> simp
  · intro h
    unfold cleanupSelector
    rw [if_neg h]
    simp
  · intro h
    unfold cleanupSelector
    rw [if_pos h]
  · rw [key]
    exact removeDeleted_benign _ _
  · rw [key]
    exact removeDeleted_benign _ _
  · rw [key]
    exact removeDeleted_benign _ _
  · intro v
    rw [key]
    simp only [mem_collectRunIDs, List.not_mem_nil, false_or, List.mem_filter]
    constructor
    · rintro ((⟨o, ⟨ho, hm⟩, hg⟩ | ⟨o, ⟨ho, hm⟩, hg⟩) | ⟨o, ⟨ho, hm⟩, hg⟩)
      · exact ⟨o, Or.inl ho, hm, hg⟩
      · exact ⟨o, Or.inr (Or.inl ho), hm, hg⟩
      · exact ⟨o, Or.inr (Or.inr ho), hm, hg⟩
    · rintro ⟨o, ho | ho | ho, hm, hg⟩
      · exact Or.inl (Or.inl ⟨o, ⟨ho, hm⟩, hg⟩)
      · exact Or.inl (Or.inr ⟨o, ⟨ho, hm⟩, hg⟩)
      · exact Or.inr ⟨o, ⟨ho, hm⟩, hg⟩
  · rw [key]
    exact nodup_collectRunIDs _ _
      (nodup_collectRunIDs _ _ (nodup_collectRunIDs _ _ List.nodup_nil))

/-- Example objects used by the concrete cleanup instances. -/
def exObjA : K8sObject := ⟨"vm-a", [(LabelManagedBy, ManagedByValue), (LabelRunID, "r1")]⟩

def exObjB : K8sObject := ⟨"vm-b", [(LabelManagedBy, ManagedByValue), (LabelRunID, "r2")]⟩

def exState : ClusterState := ⟨[exObjA, exObjB], [], [], true⟩

theorem cleanupAll_selector_scoping_and_runids_witness :
    ((LabelRunID, "r1") ∈ cleanupSelector "r1") ∧
    cleanupSelector "" = [(LabelManagedBy, ManagedByValue)] ∧
    (cleanupAll .benign exState "ns" false "r1").fst.vms = [exObjB] ∧
    (cleanupAll .benign exState "ns" false "").fst.vms = [] := by
  have h1 := cleanupAll_selector_scoping_and_runids exState "ns" false "r1"
  have h2 := cleanupAll_selector_scoping_and_runids exState "ns" false ""
  refine ⟨h1.2.1 (by decide), h2.2.2.1 rfl, ?_, ?_⟩
  · rw [h1.2.2.2.1]
    decide
  · rw [h2.2.2.2.1]
    decide

/-- C3: a per-resource delete failure other than not-found is recorded as a
descriptive entry in the result's error list while the pass continues (the
counters and error entries of every kind are those of the full listings),
and the cleanup call returns a top-level error exactly when one of the
initial listing calls fails. -/
theorem cleanupAll_partial_failure_tolerance (intc : Interceptor)
    (st : ClusterState) (ns : String) (dn : Bool) (rid : String) :
    ((cleanupAll intc st ns dn rid).snd.snd.isSome ↔
      intc.listVMErr.isSome ∨ intc.listSvcErr.isSome ∨ intc.listSecretErr.isSome) ∧
    (intc.listVMErr = none → intc.listSvcErr = none → intc.listSecretErr = none →
      (cleanupAll intc st ns dn rid).snd.snd = none ∧
      (cleanupAll intc st ns dn rid).snd.fst.errors
        = fatalFailures intc.deleteVMErr "VM"
            (st.vms.filter (fun o => matchesSelector o.labels (cleanupSelector rid)))
          ++ fatalFailures intc.deleteSvcErr "service"
            (st.services.filter (fun o => matchesSelector o.labels (cleanupSelector rid)))
          ++ fatalFailures intc.deleteSecretErr "secret"
            (st.secrets.filter (fun o => matchesSelector o.labels (cleanupSelector rid)))
          ++ nsFatalError intc st ns dn ∧
      (cleanupAll intc st ns dn rid).snd.fst.vmsDeleted
        = ((st.vms.filter (fun o => matchesSelector o.labels (cleanupSelector rid))).filter
            (fun o => (intc.deleteVMErr o.name).isNone)).length ∧
      (cleanupAll intc st ns dn rid).snd.fst.servicesDeleted
        = ((st.services.filter (fun o => matchesSelector o.labels (cleanupSelector rid))).filter
            (fun o => (intc.deleteSvcErr o.name).isNone)).length ∧
      (cleanupAll intc st ns dn rid).snd.fst.secretsDeleted
        = ((st.secrets.filter (fun o => matchesSelector o.labels (cleanupSelector rid))).filter
            (fun o => (intc.deleteSecretErr o.name).isNone)).length) := by
  constructor
  · cases hv : intc.listVMErr with
    | some e => simp [cleanupAll, hv]
    | none =>
      cases hs : intc.listSvcErr with
      | some e => simp [cleanupAll, hv, hs]
      | none =>
        cases hc : intc.listSecretErr with
        | some e => simp [cleanupAll, hv, hs, hc]
        | none =>
          rw [cleanupAll_eq_of_listsOk intc st ns dn rid hv hs hc]
          simp
  · intro hv hs hc
    rw [cleanupAll_eq_of_listsOk intc st ns dn rid hv hs hc]
    exact ⟨rfl, rfl, rfl, rfl, rfl⟩

def exIntcC3 : Interceptor :=
  { listVMErr := none, listSvcErr := none, listSecretErr := none,
    deleteVMErr := fun n => if n = "vm-a" then some (K8sError.otherErr "boom") else none,
    deleteSvcErr := fun _ => none,
    deleteSecretErr := fun _ => none,
    deleteNsErr := none }

theorem cleanupAll_partial_failure_tolerance_witness :
    (cleanupAll exIntcC3 exState "ns" false "").snd.snd = none ∧
    (cleanupAll exIntcC3 exState "ns" false "").snd.fst.errors
      = [⟨"VM", "vm-a", K8sError.otherErr "boom"⟩] ∧
    (cleanupAll exIntcC3 exState "ns" false "").snd.fst.vmsDeleted = 1 := by
  have h := (cleanupAll_partial_failure_tolerance exIntcC3 exState "ns" false "").2 rfl rfl rfl
  refine ⟨h.1, ?_, ?_⟩
  · rw [h.2.1]
    decide
  · rw [h.2.2.1]
    decide

/-- C10: a delete that fails with not-found contributes neither to the
kind's deleted counter nor to the accumulated error list, and when namespace
deletion is requested but the namespace does not exist, the namespace-deleted
flag stays false and no error is recorded for it. -/
theorem cleanupAll_notFound_is_silent (intc : Interceptor) (st : ClusterState)
    (ns : String) (dn : Bool) (rid : String) (o : K8sObject)
    (hv : intc.listVMErr = none) (hs : intc.listSvcErr = none)
    (hc : intc.listSecretErr = none)
    (hnf : intc.deleteVMErr o.name = some K8sError.notFound) :
    (cleanupAll intc st ns dn rid).snd.fst.vmsDeleted
      = ((st.vms.filter (fun x => matchesSelector x.labels (cleanupSelector rid))).filter
          (fun x => (intc.deleteVMErr x.name).isNone && x.name != o.name)).length ∧
    (∀ de ∈ (cleanupAll intc st ns dn rid).snd.fst.errors,
      ¬(de.kind = "VM" ∧ de.name = o.name)) ∧
    (intc.deleteNsErr = none → st.namespaceExists = false →
      (cleanupAll intc st ns true rid).snd.fst.namespaceDeleted = false ∧
      ∀ de ∈ (cleanupAll intc st ns true rid).snd.fst.errors,
        de.kind ≠ "namespace") := by
  refine ⟨?_, ?_, ?_⟩
  · rw [cleanupAll_eq_of_listsOk intc st ns dn rid hv hs hc]
    show ((st.vms.filter _).filter _).length = _
    congr 1
    apply List.filter_congr
    intro x hx
    by_cases hxo : x.name = o.name
    · rw [hxo, hnf]
      simp [hxo]
    · simp [bne_iff_ne, hxo]
  · rw [cleanupAll_eq_of_listsOk intc st ns dn rid hv hs hc]
    intro de hde
    rintro ⟨hk, hn⟩
    simp only [List.mem_append] at hde
    rcases hde with ((hde | hde) | hde) | hde
    · obtain ⟨-, hdel, hok⟩ := mem_fatalFailures _ _ _ _ hde
      rw [hn, hnf] at hdel
      injection hdel with h1
      rw [← h1] at hok
      simp [K8sError.isNotFound] at hok
    · have hthis := fatalFailures_kind _ _ _ _ hde
      rw [hk] at hthis
      exact absurd hthis (by decide)
    · have hthis := fatalFailures_kind _ _ _ _ hde
      rw [hk] at hthis
      exact absurd hthis (by decide)
    · unfold nsFatalError at hde
      revert hde
      split
      · split
        · intro hde; cases hde
        · split
          · intro hde; cases hde
          · intro hde
            rcases List.mem_singleton.mp hde with rfl
            have hcontra : ("namespace" : String) ≠ "VM" := by decide
            exact hcontra hk
      · intro hde; cases hde
  · intro hd hne
    rw [cleanupAll_eq_of_listsOk intc st ns true rid hv hs hc]
    have hout : nsDeleteOutcome intc st = some K8sError.notFound := by
      unfold nsDeleteOutcome
      rw [hd, hne]
      rfl
    constructor
    · show (true && (nsDeleteOutcome intc st).isNone) = false
      rw [hout]
      rfl
    · intro de hde
      simp only [List.mem_append] at hde
      rcases hde with ((hde | hde) | hde) | hde
      · rw [fatalFailures_kind _ _ _ _ hde]
        decide
      · rw [fatalFailures_kind _ _ _ _ hde]
        decide
      · rw [fatalFailures_kind _ _ _ _ hde]
        decide
      · unfold nsFatalError at hde
        rw [hout] at hde
        simp [K8sError.isNotFound] at hde

def exIntcC10 : Interceptor :=
  { listVMErr := none, listSvcErr := none, listSecretErr := none,
    deleteVMErr := fun n => if n = "vm-a" then some K8sError.notFound else none,
    deleteSvcErr := fun _ => none,
    deleteSecretErr := fun _ => none,
    deleteNsErr := none }

def exStateNoNs : ClusterState := ⟨[exObjA, exObjB], [], [], false⟩

theorem cleanupAll_notFound_is_silent_witness :
    (cleanupAll exIntcC10 exStateNoNs "ns" true "").snd.fst.vmsDeleted = 1 ∧
    (cleanupAll exIntcC10 exStateNoNs "ns" true "").snd.fst.namespaceDeleted = false := by
  have h := cleanupAll_notFound_is_silent exIntcC10 exStateNoNs "ns" true "" exObjA
    rfl rfl rfl (by decide)
  refine ⟨?_, (h.2.2 rfl rfl).1⟩
  rw [h.1]
  decide

/-! ## Resource gateway (`internal/resources/resources.go`) -/

/-- A named-object store of one cluster kind.  The cluster is the sole owner;
a create inserts when the name is absent and reports already-exists otherwise,
never overwriting the stored object. -/
structure Store (α : Type) where
  items : List (String × α)

/-- Read an object by name (a `Get`). -/
def Store.lookup {α : Type} (st : Store α) (name : String) : Option α :=
  (st.items.find? (fun p => p.fst == name)).map Prod.snd

/-- The raw cluster `Create` call. -/
def Store.create {α : Type} (st : Store α) (name : String) (v : α) :
    Store α × Option K8sError :=
  if st.items.any (fun p => p.fst == name) then (st, some K8sError.alreadyExists)
  else (⟨st.items ++ [(name, v)]⟩, none)

/-- The raw cluster removal performed by a successful `Delete`. -/
def Store.remove {α : Type} (st : Store α) (name : String) : Store α :=
  ⟨st.items.filter (fun p => !(p.fst == name))⟩

/-- `EnsureNamespace`: create-if-absent; already-exists is success.  The
namespace object carries its labels. -/
def ensureNamespace (st : Store Labels) (name : String) (labels : Labels) :
    Store Labels × Option K8sError :=
  let r := st.create name labels
  match r.snd with
  | some K8sError.alreadyExists => (r.fst, none)
  | e => (r.fst, e)

/-- A Service port (name, port, target port, protocol). -/
structure ServicePort where
  name : String
  port : Int
  targetPort : Int
  protocol : String
deriving DecidableEq, Repr

/-- A Kubernetes Service spec as the code builds it. -/
structure ServiceObj where
  name : String
  namespaceName : String
  labels : Labels
  selector : Labels
  ports : List ServicePort
deriving DecidableEq, Repr

/-- `CreateService`: create-only; already-exists is success. -/
def createService (st : Store ServiceObj) (svc : ServiceObj) :
    Store ServiceObj × Option K8sError :=
  let r := st.create svc.name svc
  match r.snd with
  | some K8sError.alreadyExists => (r.fst, none)
  | e => (r.fst, e)

/-- A Secret as built by `CreateCloudInitSecret`. -/
structure SecretObj where
  name : String
  namespaceName : String
  labels : Labels
  stringData : List (String × String)
deriving DecidableEq, Repr

/-- `CreateCloudInitSecret`: builds the labelled Secret holding the userdata
and creates it; already-exists is success. -/
def createCloudInitSecret (st : Store SecretObj) (name ns userdata : String)
    (labels : Labels) : Store SecretObj × Option K8sError :=
  let secret : SecretObj := ⟨name, ns, labels, [("userdata", userdata)]⟩
  let r := st.create name secret
  match r.snd with
  | some K8sError.alreadyExists => (r.fst, none)
  | e => (r.fst, e)

/-- The deletion loop shared by `DeleteManagedSecrets` and
`DeleteManagedServices`: delete each listed item; not-found is skipped as
success, any other failure aborts with a descriptive error. -/
def deleteLoop {α : Type} (del : String → Option K8sError) (kind : String) :
    List (String × α) → Store α → Nat → Store α × Nat × Option (String × K8sError)
  | [], st, deleted => (st, deleted, none)
  | (name, _) :: rest, st, deleted =>
    match del name with
    | none => deleteLoop del kind rest (st.remove name) (deleted + 1)
    | some e =>
      if e.isNotFound then deleteLoop del kind rest st deleted
      else (st, deleted, some ("deleting " ++ kind ++ " " ++ name, e))

/-- `DeleteManagedSecrets`: list by labels, then delete each match. -/
def deleteManagedSecrets (listErr : Option K8sError)
    (del : String → Option K8sError) (st : Store SecretObj) (ns : String)
    (sel : Labels) : Store SecretObj × Nat × Option (String × K8sError) :=
  match listErr with
  | some e => (st, 0, some ("listing secrets in " ++ ns, e))
  | none =>
    deleteLoop del "secret"
      (st.items.filter (fun p => matchesSelector p.snd.labels sel)) st 0

/-- `DeleteManagedServices`: list by labels, then delete each match. -/
def deleteManagedServices (listErr : Option K8sError)
    (del : String → Option K8sError) (st : Store ServiceObj) (ns : String)
    (sel : Labels) : Store ServiceObj × Nat × Option (String × K8sError) :=
  match listErr with
  | some e => (st, 0, some ("listing services in " ++ ns, e))
  | none =>
    deleteLoop del "service"
      (st.items.filter (fun p => matchesSelector p.snd.labels sel)) st 0

theorem Store.any_key_eq_false_of_lookup_none {α : Type} (st : Store α)
    (n : String) (h : st.lookup n = none) :
    st.items.any (fun p => p.fst == n) = false := by
  rw [List.any_eq_false]
  intro p hp
  unfold Store.lookup at h
  rcases hfind : st.items.find? (fun q => q.fst == n) with - | q
  · have := List.find?_eq_none.mp hfind p hp
    simpa using this
  · rw [hfind] at h
    cases h

theorem Store.create_absent {α : Type} (st : Store α) (n : String) (v : α)
    (h : st.lookup n = none) :
    st.create n v = (⟨st.items ++ [(n, v)]⟩, none) := by
  unfold Store.create
  rw [Store.any_key_eq_false_of_lookup_none st n h]
  simp

theorem Store.lookup_after_create {α : Type} (st : Store α) (n : String)
    (v : α) (h : st.lookup n = none) :
    (Store.mk (st.items ++ [(n, v)])).lookup n = some v := by
  unfold Store.lookup
  have hfind : st.items.find? (fun q => q.fst == n) = none := by
    rw [List.find?_eq_none]
    intro p hp
    have := List.any_eq_false.mp (Store.any_key_eq_false_of_lookup_none st n h) p hp
    simpa using this
  rw [List.find?_append, hfind]
  simp [List.find?]

theorem Store.create_present {α : Type} (st : Store α) (n : String)
    (v w : α) (h : st.lookup n = some w) :
    st.create n v = (st, some K8sError.alreadyExists) := by
  unfold Store.create
  have hany : st.items.any (fun p => p.fst == n) = true := by
    unfold Store.lookup at h
    rcases hfind : st.items.find? (fun q => q.fst == n) with - | q
    · rw [hfind] at h; cases h
    · have hq := List.find?_some hfind
      have hmem := List.mem_of_find?_eq_some hfind
      exact List.any_eq_true.mpr ⟨q, hmem, hq⟩
  rw [hany]
  simp

theorem deleteLoop_tolerates_notFound {α : Type}
    (del : String → Option K8sError) (kind : String)
    (items : List (String × α)) (st : Store α) (n : Nat)
    (h : ∀ p ∈ items, del p.fst = none ∨ del p.fst = some K8sError.notFound) :
    (deleteLoop del kind items st n).snd.snd = none := by
  induction items generalizing st n with
  | nil => rfl
  | cons p rest ih =>
    have hp := h p (List.mem_cons_self _ _)
    have hrest : ∀ q ∈ rest, del q.fst = none ∨ del q.fst = some K8sError.notFound :=
      fun q hq => h q (List.mem_cons_of_mem _ hq)
    rcases hp with hp | hp
    · show (deleteLoop del kind ((p.fst, p.snd) :: rest) st n).snd.snd = none
      rw [deleteLoop, hp]
      exact ih _ _ hrest
    · show (deleteLoop del kind ((p.fst, p.snd) :: rest) st n).snd.snd = none
      rw [deleteLoop, hp]
      exact ih _ _ hrest

/-- C7: creates of Namespace, Service and cloud-init Secret are idempotent —
an already-exists outcome from the cluster is surfaced as success, and a
repeated create with an identical spec returns success while leaving the
stored resource exactly as the first call wrote it; deletes of managed
Secrets and Services treat not-found as success and never surface it. -/
theorem resource_create_delete_idempotent :
    (∀ (st : Store Labels) (n : String) (l : Labels), st.lookup n = none →
      (ensureNamespace st n l).snd = none ∧
      (ensureNamespace st n l).fst.lookup n = some l ∧
      ∀ l2, ensureNamespace (ensureNamespace st n l).fst n l2
          = ((ensureNamespace st n l).fst, none)) ∧
    (∀ (st : Store ServiceObj) (svc : ServiceObj), st.lookup svc.name = none →
      (createService st svc).snd = none ∧
      (createService st svc).fst.lookup svc.name = some svc ∧
      createService (createService st svc).fst svc
        = ((createService st svc).fst, none)) ∧
    (∀ (st : Store SecretObj) (n ns userdata : String) (l : Labels),
      st.lookup n = none →
      (createCloudInitSecret st n ns userdata l).snd = none ∧
      (createCloudInitSecret st n ns userdata l).fst.lookup n
        = some ⟨n, ns, l, [("userdata", userdata)]⟩ ∧
      createCloudInitSecret (createCloudInitSecret st n ns userdata l).fst
          n ns userdata l
        = ((createCloudInitSecret st n ns userdata l).fst, none)) ∧
    (∀ (del : String → Option K8sError) (st : Store SecretObj) (ns : String)
        (sel : Labels),
      (∀ p ∈ st.items, del p.fst = none ∨ del p.fst = some K8sError.notFound) →
      (deleteManagedSecrets none del st ns sel).snd.snd = none) ∧
    (∀ (del : String → Option K8sError) (st : Store ServiceObj) (ns : String)
        (sel : Labels),
      (∀ p ∈ st.items, del p.fst = none ∨ del p.fst = some K8sError.notFound) →
      (deleteManagedServices none del st ns sel).snd.snd = none) := by
  refine ⟨?_, ?_, ?_, ?_, ?_⟩
  · intro st n l h
    have h1 := Store.create_absent st n l h
    have h2 := Store.lookup_after_create st n l h
    refine ⟨?_, ?_, ?_⟩
    · unfold ensureNamespace
      rw [h1]
    · unfold ensureNamespace
      rw [h1]
      exact h2
    · intro l2
      unfold ensureNamespace
      rw [h1]
      show ensureNamespace ⟨st.items ++ [(n, l)]⟩ n l2 = _
      unfold ensureNamespace
      rw [Store.create_present _ n l2 l h2]
  · intro st svc h
    have h1 := Store.create_absent st svc.name svc h
    have h2 := Store.lookup_after_create st svc.name svc h
    refine ⟨?_, ?_, ?_⟩
    · unfold createService
      rw [h1]
    · unfold createService
      rw [h1]
      exact h2
    · unfold createService
      rw [h1]
      show createService ⟨st.items ++ [(svc.name, svc)]⟩ svc = _
      unfold createService
      rw [Store.create_present _ svc.name svc svc h2]
  · intro st n ns userdata l h
    have h1 := Store.create_absent st n (⟨n, ns, l, [("userdata", userdata)]⟩ : SecretObj) h
    have h2 := Store.lookup_after_create st n (⟨n, ns, l, [("userdata", userdata)]⟩ : SecretObj) h
    refine ⟨?_, ?_, ?_⟩
    · simp only [createCloudInitSecret, h1]
    · simp only [createCloudInitSecret, h1]
      exact h2
    · simp only [createCloudInitSecret, h1, Store.create_present _ n _ _ h2]
  · intro del st ns sel h
    unfold deleteManagedSecrets
    exact deleteLoop_tolerates_notFound del "secret" _ st 0
      (fun p hp => h p (List.mem_filter.mp hp).1)
  · intro del st ns sel h
    unfold deleteManagedServices
    exact deleteLoop_tolerates_notFound del "service" _ st 0
      (fun p hp => h p (List.mem_filter.mp hp).1)

def exSecretStore : Store SecretObj :=
  ⟨[("s1", ⟨"s1", "ns", [(LabelManagedBy, ManagedByValue)], [("userdata", "#cloud-config\n")]⟩)]⟩

theorem resource_create_delete_idempotent_witness :
    (ensureNamespace (⟨[]⟩ : Store Labels) "virtwork" [(LabelManagedBy, ManagedByValue)]).snd = none ∧
    (ensureNamespace
      (ensureNamespace (⟨[]⟩ : Store Labels) "virtwork" [(LabelManagedBy, ManagedByValue)]).fst
      "virtwork" [(LabelManagedBy, ManagedByValue)]).snd = none ∧
    (deleteManagedSecrets none (fun _ => some K8sError.notFound) exSecretStore
      "ns" [(LabelManagedBy, ManagedByValue)]).snd.snd = none := by
  have h := resource_create_delete_idempotent
  have h1 := h.1 (⟨[]⟩ : Store Labels) "virtwork" [(LabelManagedBy, ManagedByValue)] rfl
  refine ⟨h1.1, ?_, ?_⟩
  · rw [h1.2.2 [(LabelManagedBy, ManagedByValue)]]
  · exact h.2.2.2.1 (fun _ => some K8sError.notFound) exSecretStore "ns"
      [(LabelManagedBy, ManagedByValue)] (fun p _ => Or.inr rfl)

/-! ## Workload registry and planning
(`internal/workloads/registry.go`, `workload.go`, `network.go`, and the
planning loop of `runE` in `cmd/virtwork/main.go`) -/

/-- The closed set of built-in workload kinds. -/
inductive WorkloadKind where
  | cpu
  | memory
  | disk
  | database
  | network
deriving DecidableEq, Repr

/-- `Name()` of each workload. -/
def WorkloadKind.name : WorkloadKind → String
  | .cpu => "cpu"
  | .memory => "memory"
  | .disk => "disk"
  | .database => "database"
  | .network => "network"

/-- The clamp inside `VMCount`: a configured count below 1 is treated as 1. -/
def clampCount (c : Int) : Nat := if c < 1 then 1 else c.toNat

/-- `VMCount()`: `NetworkWorkload` reports one server and one client per
configured count (`count * 2` after the clamp); every other kind inherits
`BaseWorkload.VMCount`, the clamped count itself. -/
def WorkloadKind.vmCount (w : WorkloadKind) (c : Int) : Nat :=
  match w with
  | .network => clampCount c * 2
  | _ => clampCount c

/-- `RequiresService()`: only the network pair needs a Service. -/
def WorkloadKind.requiresService : WorkloadKind → Bool
  | .network => true
  | _ => false

/-- Which kinds implement the `MultiVMWorkload` interface. -/
def WorkloadKind.isMultiVM : WorkloadKind → Bool
  | .network => true
  | _ => false

/-- `NetworkWorkload.ServiceSpec`: ClusterIP Service `virtwork-iperf3-server`
on port 5201 whose selector matches the server role label. -/
def networkServiceSpec (ns : String) : ServiceObj :=
  { name := "virtwork-iperf3-server", namespaceName := ns,
    labels := [(LabelAppName, "virtwork"), (LabelManagedBy, "virtwork"),
               (LabelComponent, "network")],
    selector := [(LabelRole, "server")],
    ports := [⟨"iperf3", 5201, 5201, "TCP"⟩] }

/-- `ServiceSpec()` per kind: only the network workload returns one. -/
def WorkloadKind.serviceSpec (w : WorkloadKind) (ns : String) : Option ServiceObj :=
  match w with
  | .network => some (networkServiceSpec ns)
  | _ => none

/-- `DefaultRegistry()`: the name-to-factory map, in insertion order. -/
def defaultRegistry : List (String × WorkloadKind) :=
  [("cpu", .cpu), ("memory", .memory), ("disk", .disk),
   ("database", .database), ("network", .network)]

/-- Byte-wise lexicographic order on character lists, as `sort.Strings`
compares strings. -/
def charListLt : List Char → List Char → Bool
  | [], [] => false
  | [], _ :: _ => true
  | _ :: _, [] => false
  | a :: as, b :: bs =>
    if a.toNat < b.toNat then true
    else if b.toNat < a.toNat then false
    else charListLt as bs

/-- Lexicographic order on strings. -/
def strLt (s t : String) : Bool := charListLt s.toList t.toList

/-- Insertion step of lexicographic string sorting (`sort.Strings`). -/
def insertSorted (s : String) : List String → List String
  | [] => [s]
  | t :: rest => if strLt s t then s :: t :: rest else t :: insertSorted s rest

/-- Lexicographic string sorting (`sort.Strings`). -/
def sortStrings : List String → List String
  | [] => []
  | s :: rest => insertSorted s (sortStrings rest)

/-- `Registry.List`: all registered names, sorted. -/
def registryList (reg : List (String × WorkloadKind)) : List String :=
  sortStrings (reg.map Prod.fst)

/-- `Registry.Get`: return the registered kind, or an error listing the
valid names for an unknown one. -/
def registryGet (reg : List (String × WorkloadKind)) (name : String) :
    Except String WorkloadKind :=
  match reg.find? (fun p => p.fst == name) with
  | some p => Except.ok p.snd
  | none =>
    Except.error ("unknown workload \"" ++ name ++ "\"; available: "
      ++ String.intercalate ", " (registryList reg))

/-- C8: requesting a workload kind whose name is not registered is an error
whose message carries the full list of valid kind names in stable sorted
order, and no workload is constructed. -/
theorem registryGet_unknown_reports_sorted (name : String)
    (h : ∀ p ∈ defaultRegistry, p.fst ≠ name) :
    registryGet defaultRegistry name
      = Except.error ("unknown workload \"" ++ name
          ++ "\"; available: " ++ "cpu, database, disk, memory, network") ∧
    (∀ w, registryGet defaultRegistry name ≠ Except.ok w) ∧
    registryList defaultRegistry = ["cpu", "database", "disk", "memory", "network"] := by
  have hfind : defaultRegistry.find? (fun p => p.fst == name) = none := by
    rw [List.find?_eq_none]
    intro p hp
    simpa using h p hp
  have hlist : registryList defaultRegistry
      = ["cpu", "database", "disk", "memory", "network"] := by decide
  refine ⟨?_, ?_, hlist⟩
  · unfold registryGet
    rw [hfind, hlist]
    rfl
  · intro w hw
    unfold registryGet at hw
    rw [hfind] at hw
    cases hw

theorem registryGet_unknown_reports_sorted_witness :
    registryGet defaultRegistry "http"
      = Except.error "unknown workload \"http\"; available: cpu, database, disk, memory, network" := by
  have h := registryGet_unknown_reports_sorted "http" (by decide)
  rw [h.1]
  rfl

/-- A VM plan as assembled by `runE` (`vmPlan` in `cmd/virtwork/main.go`). -/
structure VMPlanM where
  vmName : String
  component : String
  role : String
  labels : Labels
deriving DecidableEq, Repr

/-- Labels `runE` attaches to a single-role plan. -/
def singleRoleLabels (name runID : String) : Labels :=
  [(LabelAppName, "virtwork-" ++ name), (LabelManagedBy, ManagedByValue),
   (LabelComponent, name), (LabelRunID, runID)]

/-- Labels `runE` attaches to a multi-role plan (adds the role label). -/
def multiRoleLabels (name runID role : String) : Labels :=
  [(LabelAppName, "virtwork-" ++ name), (LabelManagedBy, ManagedByValue),
   (LabelComponent, name), (LabelRunID, runID), (LabelRole, role)]

/-- The per-workload planning of `runE`: a single-role kind yields `vmCount`
plans named `virtwork-<kind>-<i>`; the multi-role kind yields
`vmCount / len(roles)` plans per role named `virtwork-<kind>-<role>-<i>`. -/
def plansForWorkload (w : WorkloadKind) (cfgCount : Int) (runID : String) :
    List VMPlanM :=
  let vmCount := w.vmCount cfgCount
  if w.isMultiVM then
    let roles := ["server", "client"]
    let perRole := vmCount / roles.length
    roles.flatMap (fun role =>
      (List.range perRole).map (fun i =>
        ⟨"virtwork-" ++ w.name ++ "-" ++ role ++ "-" ++ toString i,
         w.name, role, multiRoleLabels w.name runID role⟩))
  else
    (List.range vmCount).map (fun i =>
      ⟨"virtwork-" ++ w.name ++ "-" ++ toString i,
       w.name, "", singleRoleLabels w.name runID⟩)

theorem plansForWorkload_network_eq (c : Int) (rid : String) :
    plansForWorkload .network c rid
      = ((List.range (clampCount c)).map (fun i =>
          (⟨"virtwork-network-server-" ++ toString i, "network", "server",
            multiRoleLabels "network" rid "server"⟩ : VMPlanM)))
        ++ ((List.range (clampCount c)).map (fun i =>
          (⟨"virtwork-network-client-" ++ toString i, "network", "client",
            multiRoleLabels "network" rid "client"⟩ : VMPlanM))) := by
  have hper : clampCount c * 2 / 2 = clampCount c := by omega
  unfold plansForWorkload
  simp only [WorkloadKind.isMultiVM, WorkloadKind.vmCount, WorkloadKind.name,
    if_true, List.length_cons, List.length_nil, List.flatMap_cons,
    List.flatMap_nil, List.append_nil]
  rw [show (0 + 1 + 1 : Nat) = 2 from rfl, hper]
  rfl

/-- C2: an enabled single-role workload with requested count `c` yields
exactly `N` plans (`N` = `c` clamped to at least 1) named
`virtwork-<kind>-<i>` for the zero-based indices `0..N-1`; the network
workload yields `2N` plans, `N` per role, named
`virtwork-network-<role>-<i>` with zero-based per-role indices. -/
theorem plan_count_expansion (c : Int) (rid : String) :
    (∀ w : WorkloadKind, w ≠ .network →
      (plansForWorkload w c rid).map VMPlanM.vmName
        = (List.range (if c < 1 then 1 else c.toNat)).map
            (fun i => "virtwork-" ++ w.name ++ "-" ++ toString i)) ∧
    (plansForWorkload .network c rid).length
        = 2 * (if c < 1 then 1 else c.toNat) ∧
    (plansForWorkload .network c rid).map VMPlanM.vmName
        = (List.range (if c < 1 then 1 else c.toNat)).map
            (fun i => "virtwork-network-server-" ++ toString i)
          ++ (List.range (if c < 1 then 1 else c.toNat)).map
            (fun i => "virtwork-network-client-" ++ toString i) ∧
    ((plansForWorkload .network c rid).filter (fun p => p.role == "server")).length
        = (if c < 1 then 1 else c.toNat) ∧
    ((plansForWorkload .network c rid).filter (fun p => p.role == "client")).length
        = (if c < 1 then 1 else c.toNat) := by
  have hclamp : clampCount c = (if c < 1 then 1 else c.toNat) := rfl
  have hnet := plansForWorkload_network_eq c rid
  refine ⟨?_, ?_, ?_, ?_, ?_⟩
  · intro w hw
    rw [← hclamp]
    cases w with
    | network => exact absurd rfl hw
    | cpu =>
      simp [plansForWorkload, WorkloadKind.vmCount, WorkloadKind.isMultiVM,
        WorkloadKind.name]
    | memory =>
      simp [plansForWorkload, WorkloadKind.vmCount, WorkloadKind.isMultiVM,
        WorkloadKind.name]
    | disk =>
      simp [plansForWorkload, WorkloadKind.vmCount, WorkloadKind.isMultiVM,
        WorkloadKind.name]
    | database =>
      simp [plansForWorkload, WorkloadKind.vmCount, WorkloadKind.isMultiVM,
        WorkloadKind.name]
  · rw [← hclamp, hnet]
    simp [Nat.two_mul]
  · rw [← hclamp, hnet]
    simp [Function.comp_def]
  · rw [← hclamp, hnet, List.filter_append]
    rw [List.filter_eq_self.mpr, List.filter_eq_nil_iff.mpr]
    · simp
    · rintro p hp
      obtain ⟨i, -, rfl⟩ := List.mem_map.mp hp
      intro hx
      exact absurd (show (false : Bool) = true from hx) (by decide)
    · rintro p hp
      obtain ⟨i, -, rfl⟩ := List.mem_map.mp hp
      rfl
  · rw [← hclamp, hnet, List.filter_append]
    rw [List.filter_eq_nil_iff.mpr, List.filter_eq_self.mpr]
    · simp
    · rintro p hp
      obtain ⟨i, -, rfl⟩ := List.mem_map.mp hp
      rfl
    · rintro p hp
      obtain ⟨i, -, rfl⟩ := List.mem_map.mp hp
      intro hx
      exact absurd (show (false : Bool) = true from hx) (by decide)

theorem plan_count_expansion_witness :
    ((plansForWorkload .cpu 2 "r").map VMPlanM.vmName
        = ["virtwork-cpu-0", "virtwork-cpu-1"]) ∧
    ((plansForWorkload .network 1 "r").map VMPlanM.vmName
        = ["virtwork-network-server-0", "virtwork-network-client-0"]) ∧
    ((plansForWorkload .memory 0 "r").map VMPlanM.vmName = ["virtwork-memory-0"]) := by
  have h2 := plan_count_expansion 2 "r"
  have h1 := plan_count_expansion 1 "r"
  have h0 := plan_count_expansion 0 "r"
  refine ⟨?_, ?_, ?_⟩
  · rw [h2.1 .cpu (by decide)]
    decide
  · rw [h1.2.2.1]
    decide
  · rw [h0.1 .memory (by decide)]
    decide

/-! ## VM spec construction (`internal/vm/vm.go`) -/

/-- `VMSpecOpts`: all parameters of `BuildVMSpec`. -/
structure VMSpecOpts where
  name : String
  namespaceName : String
  containerDiskImage : String
  cloudInitUserdata : String
  cpuCores : Int
  memory : String
  labels : Labels
  extraDisks : List String
  extraVolumes : List String
  dataVolumeTemplates : List String
deriving DecidableEq, Repr

/-- Object metadata of the VM. -/
structure VMMeta where
  name : String
  namespaceName : String
  labels : Labels
deriving DecidableEq, Repr

/-- The fields of the built KubeVirt `VirtualMachine` the claims reason
about: metadata, running flag, the instance template's labels, resources,
and the disk/volume assembly (by name). -/
structure VirtualMachine where
  apiVersion : String
  kind : String
  metadata : VMMeta
  running : Bool
  templateLabels : Labels
  cpuCores : Int
  memoryRequest : String
  disks : List String
  volumes : List String
  dataVolumeTemplates : List String
deriving DecidableEq, Repr

/-- `BuildVMSpec`: the containerdisk and cloudinitdisk come first, extras are
appended; the supplied labels are set both on the object metadata and on the
instance template metadata. -/
def buildVMSpec (opts : VMSpecOpts) : VirtualMachine :=
  { apiVersion := "kubevirt.io/v1", kind := "VirtualMachine",
    metadata := ⟨opts.name, opts.namespaceName, opts.labels⟩,
    running := true,
    templateLabels := opts.labels,
    cpuCores := opts.cpuCores,
    memoryRequest := opts.memory,
    disks := ["containerdisk", "cloudinitdisk"] ++ opts.extraDisks,
    volumes := ["containerdisk", "cloudinitdisk"] ++ opts.extraVolumes,
    dataVolumeTemplates := opts.dataVolumeTemplates }

/-- C9: `BuildVMSpec` installs the supplied labels both as the VM object's
own metadata labels and as the instance template's metadata labels, so every
instance spawned from the VM carries all plan labels; the network Service
selector is exactly the server role label, and every server-role network
plan's labels satisfy it, so a VM built from such a plan has template labels
matching the Service selector. -/
theorem buildVMSpec_labels_propagate :
    (∀ opts : VMSpecOpts,
      (buildVMSpec opts).metadata.labels = opts.labels ∧
      (buildVMSpec opts).templateLabels = opts.labels) ∧
    (∀ ns, (networkServiceSpec ns).selector = [(LabelRole, "server")]) ∧
    (∀ (c : Int) (rid : String) (p : VMPlanM),
      p ∈ plansForWorkload .network c rid → p.role = "server" →
      ∀ (ns : String) (opts : VMSpecOpts), opts.labels = p.labels →
        matchesSelector (buildVMSpec opts).templateLabels
          (networkServiceSpec ns).selector = true) := by
  refine ⟨fun opts => ⟨rfl, rfl⟩, fun ns => rfl, ?_⟩
  intro c rid p hp hrole ns opts hlab
  rw [plansForWorkload_network_eq] at hp
  rcases List.mem_append.mp hp with hp | hp
  · obtain ⟨i, -, rfl⟩ := List.mem_map.mp hp
    show matchesSelector opts.labels _ = true
    rw [hlab]
    rfl
  · obtain ⟨i, -, rfl⟩ := List.mem_map.mp hp
    exact absurd (show ("client" : String) = "server" from hrole) (by decide)

theorem buildVMSpec_labels_propagate_witness :
    (buildVMSpec ⟨"virtwork-network-server-0", "ns", "img", "#cloud-config\n",
        2, "2Gi", multiRoleLabels "network" "r1" "server", [], [], []⟩).templateLabels
      = multiRoleLabels "network" "r1" "server" ∧
    matchesSelector
      (buildVMSpec ⟨"virtwork-network-server-0", "ns", "img", "#cloud-config\n",
        2, "2Gi", multiRoleLabels "network" "r1" "server", [], [], []⟩).templateLabels
      (networkServiceSpec "ns").selector = true := by
  have h := buildVMSpec_labels_propagate
  refine ⟨(h.1 _).2, ?_⟩
  have hp : (⟨"virtwork-network-server-0", "network", "server",
      multiRoleLabels "network" "r1" "server"⟩ : VMPlanM)
      ∈ plansForWorkload .network 1 "r1" := by
    rw [plansForWorkload_network_eq]
    decide
  exact h.2.2 1 "r1" _ hp rfl "ns" _ rfl

/-! ## CreateVM retry wrapper (`retryOnTransient` in `internal/vm/vm.go`) -/

/-- Modelled from the spec: the transient/fatal classification of cluster
errors (rate-limited, server timeout, service unavailable, generic internal
error are transient; unauthorized, forbidden, any other 4xx are fatal).  The
classifier itself is exercised by the `CreateVM` retry tests but its body is
not among the source files. -/
def isTransient : K8sError → Bool
  | .tooManyRequests => true
  | .serverTimeout => true
  | .serviceUnavailable => true
  | .internalError => true
  | _ => false

/-- Modelled from the spec: the fixed retry budget (transient errors are
retried up to 5 times, with delays 1,2,4,8,16 base units between the six
attempts). -/
def maxRetries : Nat := 5

/-- Observable outcome of the retry wrapper: how many attempts were made and
which backoff sleeps occurred, plus how the call ended. -/
inductive RetryResult where
  | success (attempts : Nat) (delays : List Nat)
  | fatal (e : K8sError) (attempts : Nat) (delays : List Nat)
  | exhausted (lastErr : K8sError) (attempts : Nat) (delays : List Nat)
  | cancelledAt (attempts : Nat) (delays : List Nat)
deriving DecidableEq, Repr

/-- Record one backoff sleep in front of an outcome. -/
def RetryResult.addDelay (d : Nat) : RetryResult → RetryResult
  | .success a ds => .success a (d :: ds)
  | .fatal e a ds => .fatal e a (d :: ds)
  | .exhausted e a ds => .exhausted e a (d :: ds)
  | .cancelledAt a ds => .cancelledAt a (d :: ds)

/-- Modelled from the spec: the bounded-retry loop of `retryOnTransient`
(the `CreateVM`/`DeleteVM` wrapper; exercised by the tests, body not among
the source files).  At attempt `i` with the given remaining budget: check
cancellation, attempt `f i`; success stops, a fatal error stops immediately,
a transient error sleeps `base * 2^i` and retries while budget remains and
otherwise surfaces retries-exhausted carrying the last error. -/
def retryAux (f : Nat → Option K8sError) (cancelQ : Nat → Bool) (base : Nat) :
    Nat → Nat → RetryResult
  | i, 0 =>
    if cancelQ i then .cancelledAt i []
    else
      match f i with
      | none => .success (i + 1) []
      | some e =>
        if isTransient e then .exhausted e (i + 1) []
        else .fatal e (i + 1) []
  | i, budget + 1 =>
    if cancelQ i then .cancelledAt i []
    else
      match f i with
      | none => .success (i + 1) []
      | some e =>
        if isTransient e then
          (retryAux f cancelQ base (i + 1) budget).addDelay (base * 2 ^ i)
        else .fatal e (i + 1) []

/-- The retry wrapper entry point: attempt 0 with the full budget. -/
def retryOnTransient (f : Nat → Option K8sError) (cancelQ : Nat → Bool)
    (base : Nat) : RetryResult :=
  retryAux f cancelQ base 0 maxRetries

/-- C4: a create whose every attempt fails with a transient-classified error
is attempted exactly `maxRetries + 1` times with inter-attempt delays
doubling from the base interval (`base * 1,2,4,8,16`) and surfaces a
retries-exhausted outcome carrying the last error; a fatal first attempt
surfaces immediately after a single attempt with no delays; the
classification marks rate-limited, server timeout, service unavailable and
internal errors transient, and unauthorized, forbidden and other 4xx
fatal. -/
theorem createVM_retry_schedule (base : Nat) (f g : Nat → Option K8sError)
    (e : K8sError)
    (hf : ∀ n, n ≤ maxRetries → ∃ e2, f n = some e2 ∧ isTransient e2 = true)
    (hg : g 0 = some e) (he : isTransient e = false) :
    (∃ elast, f maxRetries = some elast ∧
      retryOnTransient f (fun _ => false) base
        = RetryResult.exhausted elast (maxRetries + 1)
            [base * 1, base * 2, base * 4, base * 8, base * 16]) ∧
    retryOnTransient g (fun _ => false) base = RetryResult.fatal e 1 [] ∧
    isTransient .tooManyRequests = true ∧ isTransient .serverTimeout = true ∧
    isTransient .serviceUnavailable = true ∧ isTransient .internalError = true ∧
    isTransient .unauthorized = false ∧ isTransient .forbidden = false ∧
    isTransient .badRequest = false := by
  obtain ⟨e0, hf0, ht0⟩ := hf 0 (by norm_num [maxRetries])
  obtain ⟨e1, hf1, ht1⟩ := hf 1 (by norm_num [maxRetries])
  obtain ⟨e2, hf2, ht2⟩ := hf 2 (by norm_num [maxRetries])
  obtain ⟨e3, hf3, ht3⟩ := hf 3 (by norm_num [maxRetries])
  obtain ⟨e4, hf4, ht4⟩ := hf 4 (by norm_num [maxRetries])
  obtain ⟨e5, hf5, ht5⟩ := hf 5 (by norm_num [maxRetries])
  refine ⟨⟨e5, hf5, ?_⟩, ?_, rfl, rfl, rfl, rfl, rfl, rfl, rfl⟩
  · show retryAux f (fun _ => false) base 0 maxRetries = _
    simp [maxRetries, retryAux, hf0, ht0, hf1, ht1, hf2, ht2, hf3, ht3,
      hf4, ht4, hf5, ht5, RetryResult.addDelay]
  · show retryAux g (fun _ => false) base 0 maxRetries = _
    simp [maxRetries, retryAux, hg, he]

theorem createVM_retry_schedule_witness :
    retryOnTransient (fun _ => some K8sError.serviceUnavailable) (fun _ => false) 1
      = RetryResult.exhausted K8sError.serviceUnavailable 6 [1, 2, 4, 8, 16] ∧
    retryOnTransient (fun _ => some K8sError.unauthorized) (fun _ => false) 1
      = RetryResult.fatal K8sError.unauthorized 1 [] := by
  have h := createVM_retry_schedule 1 (fun _ => some K8sError.serviceUnavailable)
    (fun _ => some K8sError.unauthorized) K8sError.unauthorized
    (fun n _ => ⟨K8sError.serviceUnavailable, rfl, rfl⟩) rfl rfl
  obtain ⟨⟨elast, hlast, hexh⟩, hfatal, -⟩ := h
  refine ⟨?_, hfatal⟩
  injection hlast with h1
  rw [hexh, ← h1]
  rfl

/-! ## Readiness poller (`WaitForVMReady` in `internal/wait/wait.go`) -/

/-- VMI lifecycle phases (`kubevirtv1.VirtualMachineInstancePhase`). -/
inductive VMIPhase where
  | Running
  | Pending
  | Scheduling
  | Scheduled
  | Succeeded
  | Failed
  | Unset
deriving DecidableEq, Repr

/-- How one readiness wait ends. -/
inductive WaitOutcome where
  | ready
  | cancelledWait
  | timedOut
  | failed (e : K8sError)
deriving DecidableEq, Repr

/-- `WaitForVMReady` as a step-indexed loop: `cancelQ n` is whether the
context is cancelled at iteration `n`, `reads n` the phase-read outcome of
iteration `n`; time starts at 0 and advances by `interval` per sleep, the
deadline sits at `timeout` (the code checks strictly-after).  `fuel` bounds
how many iterations are modelled; `none` means the loop was still polling
when fuel ran out. -/
def waitForVMReady (cancelQ : Nat → Bool)
    (reads : Nat → Except K8sError VMIPhase) (timeout interval : Nat) :
    Nat → Nat → Nat → Option WaitOutcome
  | 0, _, _ => none
  | fuel + 1, n, t =>
    if cancelQ n then some .cancelledWait
    else if timeout < t then some .timedOut
    else
      match reads n with
      | .error e =>
        if e.isNotFound then
          waitForVMReady cancelQ reads timeout interval fuel (n + 1) (t + interval)
        else some (.failed e)
      | .ok p =>
        if p = .Running then some .ready
        else waitForVMReady cancelQ reads timeout interval fuel (n + 1) (t + interval)

theorem waitForVMReady_skip (cancelQ : Nat → Bool)
    (reads : Nat → Except K8sError VMIPhase) (timeout interval : Nat)
    (j : Nat) :
    ∀ (fuel n t : Nat),
      (∀ m, m < j → cancelQ (n + m) = false) →
      (∀ m, m < j → reads (n + m) = Except.error K8sError.notFound ∨
        ∃ p, reads (n + m) = Except.ok p ∧ p ≠ VMIPhase.Running) →
      (∀ m, m < j → t + m * interval ≤ timeout) →
      waitForVMReady cancelQ reads timeout interval (j + fuel) n t
        = waitForVMReady cancelQ reads timeout interval fuel (n + j) (t + j * interval) := by
  induction j with
  | zero => intro fuel n t _ _ _; simp
  | succ j ih =>
    intro fuel n t hcan hread htime
    have hc0 : cancelQ n = false := by simpa using hcan 0 (Nat.succ_pos j)
    have ht0 : t ≤ timeout := by simpa using htime 0 (Nat.succ_pos j)
    have hstep : waitForVMReady cancelQ reads timeout interval (j + 1 + fuel) n t
        = waitForVMReady cancelQ reads timeout interval (j + fuel) (n + 1) (t + interval) := by
      have hfuel : j + 1 + fuel = (j + fuel) + 1 := by omega
      rw [hfuel]
      rw [waitForVMReady]
      rw [hc0, if_neg (by omega : ¬timeout < t)]
      simp only [Bool.false_eq_true, if_false]
      rcases hread 0 (Nat.succ_pos j) with hr | ⟨p, hr, hp⟩
      · simp only [Nat.add_zero] at hr
        rw [hr]
        rfl
      · simp only [Nat.add_zero] at hr
        rw [hr]
        simp [hp]
    rw [hstep]
    rw [ih fuel (n + 1) (t + interval)
      (fun m hm => by
        have := hcan (m + 1) (by omega)
        simpa [Nat.add_assoc, Nat.add_comm 1 m] using this)
      (fun m hm => by
        have := hread (m + 1) (by omega)
        simpa [Nat.add_assoc, Nat.add_comm 1 m] using this)
      (fun m hm => by
        have := htime (m + 1) (by omega)
        have hx : t + (m + 1) * interval = t + interval + m * interval := by ring
        rw [hx] at this
        exact this)]
    congr 1
    · omega
    · ring

/-- C5: a not-found phase read is not fatal — after any number of in-deadline
iterations that read not-found (or a non-Running phase), a Running read
returns success; a read failing with any other error fails the wait
immediately; exhausting the wall-clock deadline without a Running read times
out; a cancelled context yields the cancellation outcome, which is distinct
from the timeout outcome. -/
theorem waitForVMReady_phases (reads : Nat → Except K8sError VMIPhase)
    (timeout interval k : Nat) (e : K8sError) :
    ((∀ m, m < k → reads m = Except.error K8sError.notFound) →
      reads k = Except.ok VMIPhase.Running →
      k * interval ≤ timeout →
      waitForVMReady (fun _ => false) reads timeout interval (k + 1) 0 0
        = some WaitOutcome.ready) ∧
    (reads 0 = Except.error e → e.isNotFound = false →
      waitForVMReady (fun _ => false) reads timeout interval 1 0 0
        = some (WaitOutcome.failed e)) ∧
    ((∀ m, reads m = Except.error K8sError.notFound) → 0 < interval →
      waitForVMReady (fun _ => false) reads timeout interval
          (timeout / interval + 2) 0 0
        = some WaitOutcome.timedOut) ∧
    (∀ cancelQ : Nat → Bool, cancelQ 0 = true →
      waitForVMReady cancelQ reads timeout interval 1 0 0
        = some WaitOutcome.cancelledWait) ∧
    WaitOutcome.timedOut ≠ WaitOutcome.cancelledWait := by
  refine ⟨?_, ?_, ?_, ?_, by decide⟩
  · intro hnf hrun htime
    have hskip := waitForVMReady_skip (fun _ => false) reads timeout interval k 1 0 0
      (fun m _ => rfl)
      (fun m hm => Or.inl (by simpa using hnf m hm))
      (fun m hm => by
        simp only [Nat.zero_add]
        calc m * interval ≤ k * interval := Nat.mul_le_mul_right _ (Nat.le_of_lt hm)
          _ ≤ timeout := htime)
    rw [show k + 1 = k + 1 from rfl] at hskip
    rw [hskip]
    rw [waitForVMReady]
    rw [if_neg (by simp), if_neg (by simp; omega)]
    simp only [Nat.zero_add] at hrun ⊢
    rw [hrun]
    simp
  · intro hread he
    rw [waitForVMReady, hread]
    simp [he]
  · intro hnf hi
    have hskip := waitForVMReady_skip (fun _ => false) reads timeout interval
      (timeout / interval + 1) 1 0 0
      (fun m _ => rfl)
      (fun m _ => Or.inl (by simpa using hnf m))
      (fun m hm => by
        simp only [Nat.zero_add]
        have hmle : m ≤ timeout / interval := by omega
        have h4 : m * interval ≤ timeout / interval * interval :=
          Nat.mul_le_mul_right _ hmle
        have h5 : timeout / interval * interval ≤ timeout := Nat.div_mul_le_self _ _
        omega)
    have hlt : timeout < (timeout / interval + 1) * interval := by
      have h1 := Nat.div_add_mod timeout interval
      have h2 : timeout % interval < interval := Nat.mod_lt _ hi
      have h3 : (timeout / interval + 1) * interval
          = timeout / interval * interval + interval := by ring
      have h4 : timeout / interval * interval = interval * (timeout / interval) :=
        Nat.mul_comm _ _
      omega
    rw [show timeout / interval + 2 = (timeout / interval + 1) + 1 from rfl]
    rw [hskip]
    rw [waitForVMReady]
    rw [if_neg (by simp), if_pos (by simpa using hlt)]
  · intro cancelQ hc
    rw [waitForVMReady, hc]
    rfl

def exReadsReady : Nat → Except K8sError VMIPhase :=
  fun n => if n < 2 then Except.error K8sError.notFound else Except.ok VMIPhase.Running

theorem waitForVMReady_phases_witness :
    waitForVMReady (fun _ => false) exReadsReady 100 10 3 0 0
      = some WaitOutcome.ready ∧
    waitForVMReady (fun _ => false)
        (fun _ => Except.error (K8sError.otherErr "boom")) 100 10 1 0 0
      = some (WaitOutcome.failed (K8sError.otherErr "boom")) ∧
    waitForVMReady (fun _ => false)
        (fun _ => Except.error K8sError.notFound) 25 10 4 0 0
      = some WaitOutcome.timedOut := by
  have h1 := waitForVMReady_phases exReadsReady 100 10 2 (K8sError.otherErr "boom")
  have h2 := waitForVMReady_phases (fun _ => Except.error (K8sError.otherErr "boom"))
    100 10 0 (K8sError.otherErr "boom")
  have h3 := waitForVMReady_phases (fun _ => Except.error K8sError.notFound)
    25 10 0 (K8sError.otherErr "x")
  refine ⟨?_, ?_, ?_⟩
  · refine h1.1 (fun m hm => ?_) rfl (by decide)
    interval_cases m <;> rfl
  · exact h2.2.1 rfl rfl
  · exact h3.2.2.1 (fun m => rfl) (by decide)

/-! ## Run orchestration ordering (`runE` in `cmd/virtwork/main.go`) -/

/-- One cluster mutation issued by `runE`, in issue order. -/
inductive RunEvent where
  | ensureNamespaceEv (ns : String)
  | createServiceEv (name : String)
  | createSecretEv (vmName : String)
  | createVMEv (vmName : String)
deriving DecidableEq, Repr

/-- The Services `runE` creates: one per requested workload that requires a
Service, in workload order. -/
def servicesFor (ws : List WorkloadKind) (ns : String) : List ServiceObj :=
  ws.filterMap (fun w => if w.requiresService then w.serviceSpec ns else none)

/-- The sequential Service-creation loop: one event per attempted create,
stopping at the first failure (`runE` returns on a create error).  The
boolean reports whether the whole loop succeeded. -/
def createServicesTrace (fail : String → Bool) :
    List ServiceObj → List RunEvent × Bool
  | [] => ([], true)
  | svc :: rest =>
    if fail svc.name then ([RunEvent.createServiceEv svc.name], false)
    else
      let r := createServicesTrace fail rest
      (RunEvent.createServiceEv svc.name :: r.fst, r.snd)

/-- The sequential Secret-creation loop over the plans, one cloud-init
Secret per plan (`<vmName>-cloudinit`), stopping at the first failure. -/
def createSecretsTrace (fail : String → Bool) :
    List VMPlanM → List RunEvent × Bool
  | [] => ([], true)
  | p :: rest =>
    if fail (p.vmName ++ "-cloudinit") then ([RunEvent.createSecretEv p.vmName], false)
    else
      let r := createSecretsTrace fail rest
      (RunEvent.createSecretEv p.vmName :: r.fst, r.snd)

/-- The cluster-mutation trace of one non-dry-run `runE` invocation: ensure
the namespace, create the required Services sequentially, create one
cloud-init Secret per plan sequentially, then launch the VM creates (the
concurrent fan-out starts only after the Secret loop has finished).  A
failing namespace ensure, Service create or Secret create stops the run at
that point. -/
def runTrace (nsFail : Bool) (svcFail secretFail : String → Bool)
    (ns : String) (ws : List WorkloadKind) (cfgCount : Int) (rid : String) :
    List RunEvent :=
  let plans := ws.flatMap (fun w => plansForWorkload w cfgCount rid)
  RunEvent.ensureNamespaceEv ns ::
    (if nsFail then []
     else
       let sr := createServicesTrace svcFail (servicesFor ws ns)
       sr.fst ++
         (if !sr.snd then []
          else
            let cr := createSecretsTrace secretFail plans
            cr.fst ++
              (if !cr.snd then []
               else plans.map (fun p => RunEvent.createVMEv p.vmName))))

theorem createServicesTrace_events (fail : String → Bool)
    (svcs : List ServiceObj) :
    ∀ e ∈ (createServicesTrace fail svcs).fst, ∃ x, e = RunEvent.createServiceEv x := by
  induction svcs with
  | nil => intro e he; cases he
  | cons svc rest ih =>
    intro e he
    by_cases hf : fail svc.name = true
    · simp only [createServicesTrace, hf, if_true] at he
      rcases List.mem_singleton.mp he with rfl
      exact ⟨svc.name, rfl⟩
    · simp only [createServicesTrace, hf] at he
      rcases List.mem_cons.mp he with rfl | he
      · exact ⟨svc.name, rfl⟩
      · exact ih e he

theorem createSecretsTrace_events (fail : String → Bool) (plans : List VMPlanM) :
    ∀ e ∈ (createSecretsTrace fail plans).fst, ∃ x, e = RunEvent.createSecretEv x := by
  induction plans with
  | nil => intro e he; cases he
  | cons p rest ih =>
    intro e he
    by_cases hf : fail (p.vmName ++ "-cloudinit") = true
    · simp only [createSecretsTrace, hf, if_true] at he
      rcases List.mem_singleton.mp he with rfl
      exact ⟨p.vmName, rfl⟩
    · simp only [createSecretsTrace, hf] at he
      rcases List.mem_cons.mp he with rfl | he
      · exact ⟨p.vmName, rfl⟩
      · exact ih e he

theorem createServicesTrace_of_ok (fail : String → Bool)
    (svcs : List ServiceObj) (h : (createServicesTrace fail svcs).snd = true) :
    (createServicesTrace fail svcs).fst
      = svcs.map (fun s => RunEvent.createServiceEv s.name) := by
  induction svcs with
  | nil => rfl
  | cons svc rest ih =>
    by_cases hf : fail svc.name = true
    · simp only [createServicesTrace, hf, if_true] at h
      cases h
    · simp only [createServicesTrace, hf] at h ⊢
      simp only [Bool.false_eq_true, if_false] at h ⊢
      rw [List.map_cons]
      exact congrArg _ (ih h)

theorem createSecretsTrace_of_ok (fail : String → Bool) (plans : List VMPlanM)
    (h : (createSecretsTrace fail plans).snd = true) :
    (createSecretsTrace fail plans).fst
      = plans.map (fun p => RunEvent.createSecretEv p.vmName) := by
  induction plans with
  | nil => rfl
  | cons p rest ih =>
    by_cases hf : fail (p.vmName ++ "-cloudinit") = true
    · simp only [createSecretsTrace, hf, if_true] at h
      cases h
    · simp only [createSecretsTrace, hf] at h ⊢
      simp only [Bool.false_eq_true, if_false] at h ⊢
      rw [List.map_cons]
      exact congrArg _ (ih h)

theorem get?_lt_of_not_in_right {α : Type} (xs ys : List α) (P : α → Prop)
    (hy : ∀ a ∈ ys, ¬P a) (i : Nat) (a : α)
    (h : (xs ++ ys).get? i = some a) (ha : P a) : i < xs.length := by
  by_contra hge
  push_neg at hge
  rw [List.get?_append_right hge] at h
  exact hy a (List.get?_mem h) ha

theorem get?_ge_of_not_in_left {α : Type} (xs ys : List α) (P : α → Prop)
    (hx : ∀ a ∈ xs, ¬P a) (i : Nat) (a : α)
    (h : (xs ++ ys).get? i = some a) (ha : P a) : xs.length ≤ i := by
  by_contra hlt
  push_neg at hlt
  rw [List.get?_append hlt] at h
  exact hx a (List.get?_mem h) ha

theorem runTrace_eq_full (nsFail : Bool) (svcFail secretFail : String → Bool)
    (ns : String) (ws : List WorkloadKind) (c : Int) (rid : String)
    (hns : nsFail = false)
    (hsv : (createServicesTrace svcFail (servicesFor ws ns)).snd = true)
    (hsec : (createSecretsTrace secretFail
        (ws.flatMap (fun w => plansForWorkload w c rid))).snd = true) :
    runTrace nsFail svcFail secretFail ns ws c rid
      = RunEvent.ensureNamespaceEv ns ::
          ((servicesFor ws ns).map (fun s => RunEvent.createServiceEv s.name)
            ++ (((ws.flatMap (fun w => plansForWorkload w c rid)).map
                  (fun p => RunEvent.createSecretEv p.vmName))
              ++ ((ws.flatMap (fun w => plansForWorkload w c rid)).map
                  (fun p => RunEvent.createVMEv p.vmName)))) := by
  simp only [runTrace, hns, Bool.false_eq_true, if_false, hsv, hsec,
    Bool.not_true, createServicesTrace_of_ok _ _ hsv,
    createSecretsTrace_of_ok _ _ hsec]

theorem runTrace_vm_stage (nsFail : Bool) (svcFail secretFail : String → Bool)
    (ns : String) (ws : List WorkloadKind) (c : Int) (rid : String)
    (v : String)
    (he : RunEvent.createVMEv v ∈ runTrace nsFail svcFail secretFail ns ws c rid) :
    nsFail = false
      ∧ (createServicesTrace svcFail (servicesFor ws ns)).snd = true
      ∧ (createSecretsTrace secretFail
          (ws.flatMap (fun w => plansForWorkload w c rid))).snd = true := by
  unfold runTrace at he
  rcases List.mem_cons.mp he with he | he
  · cases he
  · by_cases hns : nsFail = true
    · rw [if_pos hns] at he
      cases he
    · rw [if_neg hns] at he
      refine ⟨by simpa using hns, ?_⟩
      rcases List.mem_append.mp he with he | he
      · obtain ⟨x, hx⟩ := createServicesTrace_events svcFail (servicesFor ws ns) _ he
        cases hx
      · cases hsv : (createServicesTrace svcFail (servicesFor ws ns)).snd with
        | false =>
          rw [hsv] at he
          simp at he
        | true =>
          rw [hsv] at he
          simp only [Bool.not_true, Bool.false_eq_true, if_false] at he
          refine ⟨rfl, ?_⟩
          rcases List.mem_append.mp he with he | he
          · obtain ⟨x, hx⟩ := createSecretsTrace_events secretFail _ _ he
            cases hx
          · cases hsec : (createSecretsTrace secretFail
                (ws.flatMap (fun w => plansForWorkload w c rid))).snd with
            | false =>
              rw [hsec] at he
              simp at he
            | true => exact rfl

/-- C6: in every non-dry-run invocation of the run operation, the namespace
ensure is the first cluster mutation and has completed before any Service
create is issued; every required Service create completes before any VM
create is issued; every cloud-init Secret create precedes every VM create,
and each VM's own Secret create completes before that VM's create — a VM
create is never issued before its Service and Secret exist. -/
theorem run_creation_ordering (nsFail : Bool) (svcFail secretFail : String → Bool)
    (ns : String) (ws : List WorkloadKind) (c : Int) (rid : String) :
    (runTrace nsFail svcFail secretFail ns ws c rid).head?
        = some (RunEvent.ensureNamespaceEv ns) ∧
    (∀ i x, (runTrace nsFail svcFail secretFail ns ws c rid).get? i
        = some (RunEvent.createServiceEv x) → 0 < i ∧ nsFail = false) ∧
    (∀ i j x v,
      (runTrace nsFail svcFail secretFail ns ws c rid).get? i
          = some (RunEvent.createServiceEv x) →
      (runTrace nsFail svcFail secretFail ns ws c rid).get? j
          = some (RunEvent.createVMEv v) → i < j) ∧
    (∀ i j x v,
      (runTrace nsFail svcFail secretFail ns ws c rid).get? i
          = some (RunEvent.createSecretEv x) →
      (runTrace nsFail svcFail secretFail ns ws c rid).get? j
          = some (RunEvent.createVMEv v) → i < j) ∧
    (∀ j v,
      (runTrace nsFail svcFail secretFail ns ws c rid).get? j
          = some (RunEvent.createVMEv v) →
      (∀ svc ∈ servicesFor ws ns, ∃ i, i < j ∧
        (runTrace nsFail svcFail secretFail ns ws c rid).get? i
          = some (RunEvent.createServiceEv svc.name)) ∧
      (∃ i, i < j ∧
        (runTrace nsFail svcFail secretFail ns ws c rid).get? i
          = some (RunEvent.createSecretEv v))) := by
  refine ⟨rfl, ?_, ?_, ?_, ?_⟩
  · intro i x hi
    cases i with
    | zero =>
      have hhead : (runTrace nsFail svcFail secretFail ns ws c rid).get? 0
          = some (RunEvent.ensureNamespaceEv ns) := rfl
      rw [hhead] at hi
      simp at hi
    | succ i' =>
      refine ⟨Nat.succ_pos i', ?_⟩
      by_cases hns : nsFail = true
      · exfalso
        have : (runTrace nsFail svcFail secretFail ns ws c rid)
            = [RunEvent.ensureNamespaceEv ns] := by
          simp [runTrace, hns]
        rw [this] at hi
        rw [List.get?_cons_succ] at hi
        simp at hi
      · simpa using hns
  · intro i j x v hi hj
    obtain ⟨hns, hsv, hsec⟩ := runTrace_vm_stage nsFail svcFail secretFail ns ws c rid v
      (List.get?_mem hj)
    rw [runTrace_eq_full nsFail svcFail secretFail ns ws c rid hns hsv hsec] at hi hj
    cases i with
    | zero => rw [List.get?_cons_zero] at hi; simp at hi
    | succ i' =>
      cases j with
      | zero => rw [List.get?_cons_zero] at hj; simp at hj
      | succ j' =>
        rw [List.get?_cons_succ] at hi hj
        have hiA := get?_lt_of_not_in_right _ _
          (fun e => ∃ y, e = RunEvent.createServiceEv y)
          (by
            intro a ha hy
            obtain ⟨y, rfl⟩ := hy
            rcases List.mem_append.mp ha with ha | ha
            · obtain ⟨p, -, hp⟩ := List.mem_map.mp ha
              cases hp
            · obtain ⟨p, -, hp⟩ := List.mem_map.mp ha
              cases hp)
          i' _ hi ⟨x, rfl⟩
        rw [← List.append_assoc] at hj
        have hjC := get?_ge_of_not_in_left _ _
          (fun e => ∃ y, e = RunEvent.createVMEv y)
          (by
            intro a ha hy
            obtain ⟨y, rfl⟩ := hy
            rcases List.mem_append.mp ha with ha | ha
            · obtain ⟨s, -, hs⟩ := List.mem_map.mp ha
              cases hs
            · obtain ⟨p, -, hp⟩ := List.mem_map.mp ha
              cases hp)
          j' _ hj ⟨v, rfl⟩
        rw [List.length_append] at hjC
        omega
  · intro i j x v hi hj
    obtain ⟨hns, hsv, hsec⟩ := runTrace_vm_stage nsFail svcFail secretFail ns ws c rid v
      (List.get?_mem hj)
    rw [runTrace_eq_full nsFail svcFail secretFail ns ws c rid hns hsv hsec] at hi hj
    cases i with
    | zero => rw [List.get?_cons_zero] at hi; simp at hi
    | succ i' =>
      cases j with
      | zero => rw [List.get?_cons_zero] at hj; simp at hj
      | succ j' =>
        rw [List.get?_cons_succ] at hi hj
        rw [← List.append_assoc] at hi hj
        have hiAB := get?_lt_of_not_in_right _ _
          (fun e => ∃ y, e = RunEvent.createSecretEv y)
          (by
            intro a ha hy
            obtain ⟨y, rfl⟩ := hy
            obtain ⟨p, -, hp⟩ := List.mem_map.mp ha
            cases hp)
          i' _ hi ⟨x, rfl⟩
        have hjC := get?_ge_of_not_in_left _ _
          (fun e => ∃ y, e = RunEvent.createVMEv y)
          (by
            intro a ha hy
            obtain ⟨y, rfl⟩ := hy
            rcases List.mem_append.mp ha with ha | ha
            · obtain ⟨s, -, hs⟩ := List.mem_map.mp ha
              cases hs
            · obtain ⟨p, -, hp⟩ := List.mem_map.mp ha
              cases hp)
          j' _ hj ⟨v, rfl⟩
        omega
  · intro j v hj
    obtain ⟨hns, hsv, hsec⟩ := runTrace_vm_stage nsFail svcFail secretFail ns ws c rid v
      (List.get?_mem hj)
    have hfull := runTrace_eq_full nsFail svcFail secretFail ns ws c rid hns hsv hsec
    rw [hfull] at hj
    cases j with
    | zero => rw [List.get?_cons_zero] at hj; simp at hj
    | succ j' =>
      rw [List.get?_cons_succ] at hj
      rw [← List.append_assoc] at hj
      have hjC := get?_ge_of_not_in_left _ _
        (fun e => ∃ y, e = RunEvent.createVMEv y)
        (by
          intro a ha hy
          obtain ⟨y, rfl⟩ := hy
          rcases List.mem_append.mp ha with ha | ha
          · obtain ⟨s, -, hs⟩ := List.mem_map.mp ha
            cases hs
          · obtain ⟨p, -, hp⟩ := List.mem_map.mp ha
            cases hp)
        j' _ hj ⟨v, rfl⟩
      rw [List.length_append, List.length_map, List.length_map] at hjC
      constructor
      · intro svc hsvc
        obtain ⟨n, hn⟩ := List.mem_iff_get?.mp hsvc
        have hnlen : n < (servicesFor ws ns).length :=
          (List.get?_eq_some.mp hn).choose
        refine ⟨n + 1, by omega, ?_⟩
        rw [hfull, List.get?_cons_succ,
          List.get?_append (by simpa using hnlen), List.get?_map, hn]
        rfl
      · obtain ⟨p, hpget, hpv⟩ : ∃ p,
            (ws.flatMap (fun w => plansForWorkload w c rid)).get?
              (j' - ((servicesFor ws ns).length
                + (ws.flatMap (fun w => plansForWorkload w c rid)).length))
              = some p ∧ p.vmName = v := by
          rw [List.get?_append_right (by
            rw [List.length_append, List.length_map, List.length_map]
            exact hjC)] at hj
          rw [List.length_append, List.length_map, List.length_map] at hj
          rw [List.get?_map] at hj
          rcases hget : (ws.flatMap (fun w => plansForWorkload w c rid)).get?
              (j' - ((servicesFor ws ns).length
                + (ws.flatMap (fun w => plansForWorkload w c rid)).length)) with - | p
          · rw [hget] at hj; cases hj
          · rw [hget] at hj
            injection hj with hj2
            injection hj2 with hj3
            exact ⟨p, rfl, hj3⟩
        have hpmem : p ∈ ws.flatMap (fun w => plansForWorkload w c rid) :=
          List.get?_mem hpget
        obtain ⟨m, hm⟩ := List.mem_iff_get?.mp hpmem
        have hmlen : m < (ws.flatMap (fun w => plansForWorkload w c rid)).length :=
          (List.get?_eq_some.mp hm).choose
        refine ⟨(servicesFor ws ns).length + m + 1, by omega, ?_⟩
        rw [hfull, List.get?_cons_succ,
          List.get?_append_right (by simp)]
        rw [List.length_map]
        rw [show (servicesFor ws ns).length + m - (servicesFor ws ns).length = m by omega]
        rw [List.get?_append (by simpa using hmlen), List.get?_map, hm]
        simp [hpv]

def exSvcFailNone : String → Bool := fun _ => false

theorem run_creation_ordering_witness :
    (runTrace false exSvcFailNone exSvcFailNone "ns" [WorkloadKind.network] 1 "r").head?
        = some (RunEvent.ensureNamespaceEv "ns") ∧
    (0 < 1 ∧ (false : Bool) = false) ∧
    (1 < 4 ∧ (2 < 4 ∧ 3 < 4)) := by
  have h := run_creation_ordering false exSvcFailNone exSvcFailNone "ns"
    [WorkloadKind.network] 1 "r"
  exact ⟨h.1,
    h.2.1 1 "virtwork-iperf3-server" (by decide),
    h.2.2.1 1 4 "virtwork-iperf3-server" "virtwork-network-server-0"
      (by decide) (by decide),
    h.2.2.2.1 2 4 "virtwork-network-server-0" "virtwork-network-server-0"
      (by decide) (by decide),
    h.2.2.2.1 3 4 "virtwork-network-client-0" "virtwork-network-server-0"
      (by decide) (by decide)⟩

end Virtwork
